import Mathlib

set_option autoImplicit false

/-!
Verification of the campaign-hierarchy classification engine of the
datawarehouse job: the rule-based campaign-name-to-hierarchy mapper
(`src/etl/hierarchy_mapper.py`), the override-aware upsert protocol
(`src/database/operations.py`), and the rule-file validation layer
(`scripts/manage_rules.py`).

Modelling conventions:
- SQL NULL and missing Python dict keys are `Option`; Python truthiness of a
  string field (`x or y`, `if x:`) is modelled by `pyOr` which treats `none`
  and `some ""` alike.
- Machine floats of the confidence formula are modelled as exact rationals
  (the constants 0.1, 0.2, 0.8, 1.0 of the source become 1/10, 1/5, 4/5, 1).
- Timestamps are abstract `Nat` values passed explicitly to each operation
  (the source uses `datetime.now`).
- The Python call `re.search(pat, name, re.IGNORECASE)` is an oracle parameter
  `regexSearch : String → String → Option Bool`: `none` models a pattern on
  which `re` raises `re.error`, `some b` the boolean outcome of the
  case-insensitive unanchored search.  Similarly `re.compile` validity in the
  rule validator is an oracle `regexOk : String → Bool`.
-/

namespace DW

/-- Whether `p` occurs as a contiguous sublist of `s` (Python `p in s` on strings). -/
def hasInfixChars (p : List Char) : List Char → Bool
  | [] => p.isEmpty
  | c :: rest => p.isPrefixOf (c :: rest) || hasInfixChars p rest

/-- Python `sub in s` substring test (case-sensitive). -/
def strContainsSub (s sub : String) : Bool :=
  hasInfixChars sub.data s.data

/-- Python `str.lower()` (character-wise, as in CPython for ASCII). -/
def lowerStr (s : String) : String :=
  ⟨s.data.map Char.toLower⟩

/-- Python `s.startswith(p)`. -/
def strStartsWith (s p : String) : Bool :=
  p.data.isPrefixOf s.data

/-- Python `s.endswith(p)`. -/
def strEndsWith (s p : String) : Bool :=
  p.data.isSuffixOf s.data

/-- The five hierarchy fields of the data model. -/
inductive HField where
  | network
  | domain
  | placement
  | targeting
  | special
deriving DecidableEq, Repr

/-- A five-field hierarchy mapping (the dict built by `apply_mapping_rules`). -/
structure Hierarchy where
  network : String
  domain : String
  placement : String
  targeting : String
  special : String
deriving DecidableEq, Repr

def Hierarchy.get (m : Hierarchy) : HField → String
  | .network => m.network
  | .domain => m.domain
  | .placement => m.placement
  | .targeting => m.targeting
  | .special => m.special

/-- `HierarchyMapper.default_hierarchy` from `hierarchy_mapper.py`. -/
def defaultHierarchy : Hierarchy :=
  { network := "Unknown", domain := "Unknown Network", placement := "Unknown",
    targeting := "Unknown", special := "Standard" }

/-- The `mapping` sub-dict of a YAML rule; each field accessed with `.get`,
so a missing field is `none`. -/
structure MappingFields where
  network : Option String
  domain : Option String
  placement : Option String
  targeting : Option String
  special : Option String
deriving DecidableEq, Repr

def MappingFields.get (m : MappingFields) : HField → Option String
  | .network => m.network
  | .domain => m.domain
  | .placement => m.placement
  | .targeting => m.targeting
  | .special => m.special

/-- A rule as consumed by `apply_mapping_rules` (output of `get_rules`):
the dict-access defaults of the source (rule.get with default 0 for priority, etc.) are
applied at the field level, so the fields here are total. -/
structure Rule where
  name : String
  priority : Int
  pattern_type : String
  pattern_value : String
  mapping : MappingFields
deriving DecidableEq, Repr

/-- The matched-rule record appended by `apply_mapping_rules`. -/
structure MatchedRule where
  name : String
  priority : Int
  pattern_type : String
  pattern_value : String
deriving DecidableEq, Repr

def toMatched (r : Rule) : MatchedRule :=
  { name := r.name, priority := r.priority, pattern_type := r.pattern_type,
    pattern_value := r.pattern_value }

/-- `HierarchyMapper.match_rule`.  Faithful points: the type dispatch happens
on the lower-cased `pattern_type`; `exact`/`contains`/`starts_with`/`ends_with`
compare lower-cased strings; `regex` searches the ORIGINAL-case campaign name
(the oracle models `re.search(..., re.IGNORECASE)`); an invalid regex
(`re.error`, oracle `none`) and an unknown pattern type both yield `false`;
an empty pattern type or pattern value yields `false` (Python truthiness
guard). -/
def matchRule (regexSearch : String → String → Option Bool)
    (campaign_name : String) (rule : Rule) : Bool :=
  let pt := lowerStr rule.pattern_type
  let pv := rule.pattern_value
  if pt = "" ∨ pv = "" then false
  else
    let cl := lowerStr campaign_name
    let pl := lowerStr pv
    if pt = "exact" then cl = pl
    else if pt = "contains" then strContainsSub cl pl
    else if pt = "starts_with" then strStartsWith cl pl
    else if pt = "ends_with" then strEndsWith cl pl
    else if pt = "regex" then (regexSearch pv campaign_name).getD false
    else false

/-- One field update of `apply_mapping_rules`: set only when the rule value
is truthy, is not `inherit`, and the field still holds its default. -/
def applyField (v : Option String) (cur dflt : String) : String :=
  match v with
  | some s => if s ≠ "" ∧ s ≠ "inherit" ∧ cur = dflt then s else cur
  | none => cur

/-- Apply the mapping of one matching rule to the accumulated mapping. -/
def applyRule (r : Rule) (m : Hierarchy) : Hierarchy :=
  { network := applyField r.mapping.network m.network defaultHierarchy.network,
    domain := applyField r.mapping.domain m.domain defaultHierarchy.domain,
    placement := applyField r.mapping.placement m.placement defaultHierarchy.placement,
    targeting := applyField r.mapping.targeting m.targeting defaultHierarchy.targeting,
    special := applyField r.mapping.special m.special defaultHierarchy.special }

/-- The loop body of `apply_mapping_rules`. -/
def ruleStep (regexSearch : String → String → Option Bool) (campaign_name : String)
    (acc : Hierarchy × List MatchedRule) (r : Rule) : Hierarchy × List MatchedRule :=
  if matchRule regexSearch campaign_name r then (applyRule r acc.1, acc.2 ++ [toMatched r])
  else acc

/-- The rule loop of `apply_mapping_rules` over the (already priority-sorted)
rule list. -/
def runRules (regexSearch : String → String → Option Bool) (campaign_name : String)
    (rules : List Rule) : Hierarchy × List MatchedRule :=
  rules.foldl (ruleStep regexSearch campaign_name) (defaultHierarchy, [])

/-- The five dict values of a mapping, in insertion order. -/
def hierValues (m : Hierarchy) : List String :=
  [m.network, m.domain, m.placement, m.targeting, m.special]

/-- `HierarchyMapper.get_mapping_confidence`.  Note the penalty counts fields
whose value CONTAINS the substring "Unknown" (Python containment test), and the
exact-match bonus compares the stored `pattern_type` verbatim. -/
def getMappingConfidence (mapping : Hierarchy) (matched : List MatchedRule) : ℚ :=
  if matched = [] then 1/10
  else
    let base0 : ℚ := min (4/5) ((matched.length : ℚ) * (1/5))
    let base1 : ℚ := if matched.any (fun r => r.pattern_type = "exact") then base0 + 1/5 else base0
    let base2 : ℚ := if matched.any (fun r => r.priority ≥ 900) then base1 + 1/10 else base1
    let unknown_count := (hierValues mapping).countP (fun v => strContainsSub v "Unknown")
    let base3 : ℚ := if 3 ≤ unknown_count then base2 - 1/5 else base2
    max (1/10) (min 1 base3)

/-- `HierarchyMapper.apply_mapping_rules` as a function of the rule list
returned by `get_rules` (active rules sorted by descending priority). -/
def applyMappingRules (regexSearch : String → String → Option Bool)
    (campaign_name : String) (rules : List Rule) :
    Hierarchy × List MatchedRule × ℚ :=
  if rules = [] then (defaultHierarchy, [], 1/10)
  else
    let p := runRules regexSearch campaign_name rules
    (p.1, p.2, getMappingConfidence p.1 p.2)

/-- Python string truthiness fallback `x or y` for an optional string `x`
(`None or y = y`, `"" or y = y`, otherwise `x`).  Also models
`if override.get(field): base[field] = override[field]`. -/
def pyOr (v : Option String) (dflt : String) : String :=
  match v with
  | some s => if s = "" then dflt else s
  | none => dflt

/-- A row of the `campaign_hierarchy_overrides` table. -/
structure OverrideRow where
  campaign_id : Int
  network : Option String
  domain : Option String
  placement : Option String
  targeting : Option String
  special : Option String
  override_reason : String
  overridden_by : String
  overridden_at : Nat
  is_active : Bool
  updated_at : Option Nat
deriving DecidableEq, Repr

def OverrideRow.get (o : OverrideRow) : HField → Option String
  | .network => o.network
  | .domain => o.domain
  | .placement => o.placement
  | .targeting => o.targeting
  | .special => o.special

/-- The `hierarchy_data` dict passed to `upsert_campaign_hierarchy`: the five
field values are accessed by key (required), `mapping_confidence` with
`.get(..., 1.0)`. -/
structure HierarchyData where
  campaign_id : Int
  campaign_name : String
  network : String
  domain : String
  placement : String
  targeting : String
  special : String
  mapping_confidence : Option ℚ
deriving DecidableEq, Repr

def HierarchyData.get (h : HierarchyData) : HField → String
  | .network => h.network
  | .domain => h.domain
  | .placement => h.placement
  | .targeting => h.targeting
  | .special => h.special

/-- A row of the `campaign_hierarchy` table (unique on `campaign_id`, see the
schema clause `UNIQUE(campaign_id)`); the surrogate id and `created_at` are
omitted. -/
structure CampaignHierarchyRow where
  campaign_id : Int
  campaign_name : String
  network : String
  domain : String
  placement : String
  targeting : String
  special : String
  mapping_confidence : ℚ
  updated_at : Nat
deriving DecidableEq, Repr

def CampaignHierarchyRow.get (r : CampaignHierarchyRow) : HField → String
  | .network => r.network
  | .domain => r.domain
  | .placement => r.placement
  | .targeting => r.targeting
  | .special => r.special

/-- The database state touched by the override-aware upsert protocol:
`campaign_hierarchy` as a key-to-row map (unique on campaign id) and
`campaign_hierarchy_overrides` as an append-only row list. -/
structure DbState where
  hierarchy : Int → Option CampaignHierarchyRow
  overrides : List OverrideRow

/-- `ORDER BY overridden_at DESC LIMIT 1`: keep the row with the larger
`overridden_at` (ties resolved arbitrarily; here, first wins). -/
def laterOverride (a b : OverrideRow) : OverrideRow :=
  if a.overridden_at < b.overridden_at then b else a

/-- The `SELECT ... WHERE campaign_id = ? AND is_active = 1 ORDER BY
overridden_at DESC LIMIT 1` query used by both `upsert_campaign_hierarchy`
and `get_hierarchy_override`. -/
def getHierarchyOverride (rows : List OverrideRow) (c : Int) : Option OverrideRow :=
  (rows.filter (fun r => r.campaign_id = c ∧ r.is_active)).foldl
    (fun acc r =>
      match acc with
      | none => some r
      | some a => some (laterOverride a r)) none

/-- `DatabaseOperations.upsert_campaign_hierarchy`: consult the active
override first; if present, merge field-by-field with `x or y` truthiness
fallback and force confidence 1.0; then `INSERT OR REPLACE` the single row
for the campaign. -/
def upsertCampaignHierarchy (st : DbState) (hd : HierarchyData) (now : Nat) : DbState :=
  let row : CampaignHierarchyRow :=
    match getHierarchyOverride st.overrides hd.campaign_id with
    | some o =>
      { campaign_id := hd.campaign_id, campaign_name := hd.campaign_name,
        network := pyOr o.network hd.network,
        domain := pyOr o.domain hd.domain,
        placement := pyOr o.placement hd.placement,
        targeting := pyOr o.targeting hd.targeting,
        special := pyOr o.special hd.special,
        mapping_confidence := 1,
        updated_at := now }
    | none =>
      { campaign_id := hd.campaign_id, campaign_name := hd.campaign_name,
        network := hd.network, domain := hd.domain, placement := hd.placement,
        targeting := hd.targeting, special := hd.special,
        mapping_confidence := hd.mapping_confidence.getD 1,
        updated_at := now }
  { st with hierarchy := fun c => if c = hd.campaign_id then some row else st.hierarchy c }

/-- The `override_data` dict passed to `upsert_hierarchy_override` (field
values via `.get`, `override_reason` defaulting to "Manual correction"). -/
structure OverrideData where
  campaign_id : Int
  network : Option String
  domain : Option String
  placement : Option String
  targeting : Option String
  special : Option String
  override_reason : Option String
  overridden_by : String
deriving DecidableEq, Repr

/-- `DatabaseOperations.upsert_hierarchy_override`: soft-deactivate every
currently active override row of the campaign (UPDATE, never DELETE), then
INSERT the new row as active. -/
def upsertHierarchyOverride (st : DbState) (od : OverrideData) (now : Nat) : DbState :=
  let deactivated := st.overrides.map (fun r =>
    if r.campaign_id = od.campaign_id ∧ r.is_active then
      { r with is_active := false, updated_at := some now }
    else r)
  let newRow : OverrideRow :=
    { campaign_id := od.campaign_id, network := od.network, domain := od.domain,
      placement := od.placement, targeting := od.targeting, special := od.special,
      override_reason := od.override_reason.getD "Manual correction",
      overridden_by := od.overridden_by, overridden_at := now,
      is_active := true, updated_at := none }
  { st with overrides := deactivated ++ [newRow] }

/-- The dict returned by `get_merged_hierarchy`: the base row with non-null
(truthy) override fields substituted, plus override metadata. -/
structure MergedHierarchy where
  campaign_id : Int
  campaign_name : String
  network : String
  domain : String
  placement : String
  targeting : String
  special : String
  mapping_confidence : ℚ
  updated_at : Nat
  has_override : Bool
  override_reason : Option String
  overridden_by : Option String
  overridden_at : Option Nat
deriving DecidableEq, Repr

def MergedHierarchy.get (m : MergedHierarchy) : HField → String
  | .network => m.network
  | .domain => m.domain
  | .placement => m.placement
  | .targeting => m.targeting
  | .special => m.special

/-- `DatabaseOperations.get_merged_hierarchy`: fetch the base
`campaign_hierarchy` row (none if absent), then substitute each truthy field
of the active override (`if override.get(field):`). -/
def getMergedHierarchy (st : DbState) (c : Int) : Option MergedHierarchy :=
  match st.hierarchy c with
  | none => none
  | some base =>
    match getHierarchyOverride st.overrides c with
    | some o =>
      some { campaign_id := base.campaign_id, campaign_name := base.campaign_name,
             network := pyOr o.network base.network,
             domain := pyOr o.domain base.domain,
             placement := pyOr o.placement base.placement,
             targeting := pyOr o.targeting base.targeting,
             special := pyOr o.special base.special,
             mapping_confidence := base.mapping_confidence,
             updated_at := base.updated_at,
             has_override := true,
             override_reason := some o.override_reason,
             overridden_by := some o.overridden_by,
             overridden_at := some o.overridden_at }
    | none =>
      some { campaign_id := base.campaign_id, campaign_name := base.campaign_name,
             network := base.network, domain := base.domain, placement := base.placement,
             targeting := base.targeting, special := base.special,
             mapping_confidence := base.mapping_confidence,
             updated_at := base.updated_at,
             has_override := false,
             override_reason := none, overridden_by := none, overridden_at := none }

/-- Number of active override rows for a campaign. -/
def activeCount (rows : List OverrideRow) (c : Int) : Nat :=
  (rows.filter (fun r => r.campaign_id = c ∧ r.is_active)).length

/-- Number of override rows (active or not) for a campaign. -/
def rowCount (rows : List OverrideRow) (c : Int) : Nat :=
  (rows.filter (fun r => r.campaign_id = c)).length

/-- A sequence of `upsert_hierarchy_override` calls, each with its own
timestamp. -/
def applyOverrideCalls (st : DbState) (calls : List (OverrideData × Nat)) : DbState :=
  calls.foldl (fun s c => upsertHierarchyOverride s c.1 c.2) st

/-- A raw `mapping` sub-dict of the rule file, as seen by the validator:
`none` models a missing key, `some ""` a present but falsy value. -/
structure RawMapping where
  network : Option String
  domain : Option String
  placement : Option String
  targeting : Option String
  special : Option String
deriving DecidableEq, Repr

/-- A raw rule entry of the YAML rule file: every key may be missing. -/
structure RawRule where
  name : Option String
  priority : Option Int
  pattern_type : Option String
  pattern_value : Option String
  mapping : Option RawMapping
  active : Option Bool
deriving DecidableEq, Repr

/-- A parsed rule-file document (`version` field plus `rules` list, either of
which may be missing). -/
structure RulesData where
  version : Option String
  rules : Option (List RawRule)
deriving DecidableEq, Repr

def patternTypes : List String :=
  ["contains", "starts_with", "ends_with", "regex", "exact"]

/-- Required-field errors of `RuleManager.validate_rules` for one rule, in
source order (error texts abbreviated: the source quotes the field names). -/
def requiredFieldErrors (r : RawRule) (rname : String) : List String :=
  (if r.name = none then [rname ++ ": Missing required field name"] else []) ++
  (if r.priority = none then [rname ++ ": Missing required field priority"] else []) ++
  (if r.pattern_type = none then [rname ++ ": Missing required field pattern_type"] else []) ++
  (if r.pattern_value = none then [rname ++ ": Missing required field pattern_value"] else []) ++
  (if r.mapping = none then [rname ++ ": Missing required field mapping"] else []) ++
  (if r.active = none then [rname ++ ": Missing required field active"] else [])

/-- Per-field mapping checks of `validate_rules` (missing key, or a falsy /
non-string value modelled as the empty string). -/
def mappingFieldError (v : Option String) (rname fname : String) : List String :=
  match v with
  | none => [rname ++ ": Missing mapping field " ++ fname]
  | some s => if s = "" then [rname ++ ": Mapping field " ++ fname ++ " must be non-empty string"] else []

def mappingFieldErrors (m : RawMapping) (rname : String) : List String :=
  mappingFieldError m.network rname "network" ++
  mappingFieldError m.domain rname "domain" ++
  mappingFieldError m.placement rname "placement" ++
  mappingFieldError m.targeting rname "targeting" ++
  mappingFieldError m.special rname "special"

/-- The validation of one rule at index `i`, threading the accumulated list
of priorities already seen (for the duplicate check); `regexOk` models
`re.compile` succeeding. -/
def validateRuleAt (regexOk : String → Bool) (i : Nat) (pris : List Int) (r : RawRule) :
    List String × List Int :=
  let rname := r.name.getD ("Rule " ++ toString (i + 1))
  let e1 := requiredFieldErrors r rname
  let ep :=
    match r.priority with
    | none => ([], pris)
    | some p =>
      if p < 1 then ([rname ++ ": Priority must be positive integer"], pris)
      else if p ∈ pris then ([rname ++ ": Duplicate priority " ++ toString p], pris)
      else ([], pris ++ [p])
  let e3 :=
    match r.pattern_type with
    | none => []
    | some s => if s ≠ "" ∧ s ∉ patternTypes then [rname ++ ": Invalid pattern_type " ++ s] else []
  let e4 :=
    if r.pattern_type = some "regex" ∧ ¬ regexOk (r.pattern_value.getD "") then
      [rname ++ ": Invalid regex pattern"]
    else []
  let e5 := mappingFieldErrors (r.mapping.getD ⟨none, none, none, none, none⟩) rname
  (e1 ++ ep.1 ++ e3 ++ e4 ++ e5, ep.2)

def validateRulesList (regexOk : String → Bool) : Nat → List Int → List RawRule → List String
  | _, _, [] => []
  | i, pris, r :: rest =>
    let p := validateRuleAt regexOk i pris r
    p.1 ++ validateRulesList regexOk (i + 1) p.2 rest

/-- `RuleManager.validate_rules`: structure checks (missing `rules` section
returns immediately; missing `version`; empty rule list), then per-rule
checks, then the fallback-band check (some rule with priority ≤ 10). -/
def validateRules (regexOk : String → Bool) (rd : RulesData) : List String :=
  match rd.rules with
  | none => ["Missing rules section"]
  | some rules =>
    let versionErr := if rd.version = none then ["Missing version field"] else []
    if rules = [] then versionErr ++ ["Rules must be a non-empty list"]
    else
      let ruleErrs := validateRulesList regexOk 0 [] rules
      let fallbackErr :=
        if rules.any (fun r => r.priority.getD 999 ≤ 10) then []
        else ["No fallback rule found (priority <= 10)"]
      versionErr ++ ruleErrs ++ fallbackErr

/-- The lookup rule.get of the active flag, defaulting to True. -/
def ruleActive (r : RawRule) : Bool :=
  r.active.getD true

/-- Stable descending insertion by priority defaulting to 0 (the stable Python
`sorted(..., key=priority, reverse=True)`). -/
def insertDesc (r : RawRule) : List RawRule → List RawRule
  | [] => [r]
  | x :: xs => if x.priority.getD 0 ≥ r.priority.getD 0 then x :: insertDesc r xs else r :: x :: xs

def sortByPriorityDesc (l : List RawRule) : List RawRule :=
  l.foldl (fun acc r => insertDesc r acc) []

/-- `HierarchyMapper.load_rules_from_yaml` on parsed YAML data (`none` models
a missing file, a YAML parse failure, or falsy/`rules`-less data — every such
path returns `[]`).  Note: NO validation happens on this path; the active
rules are filtered and sorted by descending priority, then used directly. -/
def loadRulesFromYamlData (rd : Option RulesData) : List RawRule :=
  match rd with
  | none => []
  | some d =>
    match d.rules with
    | none => []
    | some rules => sortByPriorityDesc (rules.filter ruleActive)

/-- A row of the `hierarchy_rules` database table. -/
structure DbRule where
  rule_name : String
  pattern_type : String
  pattern_value : String
  network : String
  domain : String
  placement : String
  targeting : String
  special : String
  priority : Int
  is_active : Bool
deriving DecidableEq, Repr

/-- The `rule_data` insert of `RuleManager.reload_to_database`
(`add_hierarchy_rule` with `is_active` defaulting to true). -/
def toDbRule (r : RawRule) : DbRule :=
  let m := r.mapping.getD ⟨none, none, none, none, none⟩
  { rule_name := r.name.getD "", pattern_type := r.pattern_type.getD "",
    pattern_value := r.pattern_value.getD "", network := m.network.getD "",
    domain := m.domain.getD "", placement := m.placement.getD "",
    targeting := m.targeting.getD "", special := m.special.getD "",
    priority := r.priority.getD 0, is_active := true }

/-- `RuleManager.reload_to_database`: validate first and refuse (returning
`False`, database untouched) on any validation error; otherwise clear the
`hierarchy_rules` table and insert the active rules.  `none` input models
`load_rules` raising (missing file / YAML error), caught as failure. -/
def reloadToDatabase (regexOk : String → Bool) (rd : Option RulesData)
    (db : List DbRule) : Bool × List DbRule :=
  match rd with
  | none => (false, db)
  | some d =>
    if validateRules regexOk d ≠ [] then (false, db)
    else
      match d.rules with
      | none => (false, db)
      | some rules => (true, (rules.filter ruleActive).map toDbRule)

/-- All five hierarchy fields. -/
def allHFields : List HField :=
  [HField.network, HField.domain, HField.placement, HField.targeting, HField.special]

/-- Modelled from the spec: the confidence formula exactly as the spec words
it — base `min(0.8, 0.2·|matched|)`, `+0.2` for an exact match, `+0.1` for a
priority ≥ 900 match, `−0.2` "if ≥3 of the 5 mapping fields REMAIN AT THEIR
DEFAULT Unknown value" (read as: the field still equals its default),
clamped to `[0.1, 1.0]`.  Used only to compare the wording of the spec against
the source function `get_mapping_confidence`. -/
def claimedConfidence (mapping : Hierarchy) (matched : List MatchedRule) : ℚ :=
  let base : ℚ := min (4/5) ((matched.length : ℚ) * (1/5))
  let exactBonus : ℚ := if matched.any (fun r => r.pattern_type = "exact") then 1/5 else 0
  let priBonus : ℚ := if matched.any (fun r => r.priority ≥ 900) then 1/10 else 0
  let defaultsLeft := allHFields.countP (fun f => mapping.get f = defaultHierarchy.get f)
  let penalty : ℚ := if 3 ≤ defaultsLeft then 1/5 else 0
  max (1/10) (min 1 (base + exactBonus + priBonus - penalty))

/-- The confidence formula with the penalty condition the source actually
implements: `−0.2` if at least 3 of the 5 field VALUES contain the substring
"Unknown" (Python containment test), independent additive formulation. -/
def amendedConfidence (mapping : Hierarchy) (matched : List MatchedRule) : ℚ :=
  let base : ℚ := min (4/5) ((matched.length : ℚ) * (1/5))
  let exactBonus : ℚ := if matched.any (fun r => r.pattern_type = "exact") then 1/5 else 0
  let priBonus : ℚ := if matched.any (fun r => r.priority ≥ 900) then 1/10 else 0
  let unknownish := (hierValues mapping).countP (fun v => strContainsSub v "Unknown")
  let penalty : ℚ := if 3 ≤ unknownish then 1/5 else 0
  max (1/10) (min 1 (base + exactBonus + priBonus - penalty))

/-- What "persisted value = override field value if non-null (and non-empty),
else the rule-based value" means for a single field. -/
def fieldMergeSpec (ov : Option String) (rule stored : String) : Prop :=
  (∀ s, ov = some s → s ≠ "" → stored = s) ∧ ((ov = none ∨ ov = some "") → stored = rule)

theorem applyRule_get (r : Rule) (m : Hierarchy) (f : HField) :
    (applyRule r m).get f = applyField (r.mapping.get f) (m.get f) (defaultHierarchy.get f) := by
  cases f <;> rfl

theorem applyField_preserve (v : Option String) (cur dflt : String) (h : cur ≠ dflt) :
    applyField v cur dflt = cur := by
  cases v with
  | none => rfl
  | some s =>
    simp only [applyField]
    rw [if_neg]
    rintro ⟨-, -, hc⟩
    exact h hc

theorem ruleStep_preserve (rs : String → String → Option Bool) (name : String)
    (acc : Hierarchy × List MatchedRule) (r : Rule) (f : HField)
    (h : acc.1.get f ≠ defaultHierarchy.get f) :
    (ruleStep rs name acc r).1.get f = acc.1.get f := by
  unfold ruleStep
  split
  · rw [applyRule_get]
    exact applyField_preserve _ _ _ h
  · rfl

theorem foldl_ruleStep_preserve (rs : String → String → Option Bool) (name : String) (f : HField) :
    ∀ (rules : List Rule) (acc : Hierarchy × List MatchedRule),
      acc.1.get f ≠ defaultHierarchy.get f →
      (rules.foldl (ruleStep rs name) acc).1.get f = acc.1.get f := by
  intro rules
  induction rules with
  | nil => intro acc h; rfl
  | cons r rest ih =>
    intro acc h
    have hstep := ruleStep_preserve rs name acc r f h
    rw [List.foldl_cons, ih (ruleStep rs name acc r) (by rw [hstep]; exact h), hstep]

theorem upsert_lookup_override (st : DbState) (hd : HierarchyData) (now : Nat) (o : OverrideRow)
    (h : getHierarchyOverride st.overrides hd.campaign_id = some o) :
    (upsertCampaignHierarchy st hd now).hierarchy hd.campaign_id =
      some { campaign_id := hd.campaign_id, campaign_name := hd.campaign_name,
             network := pyOr o.network hd.network,
             domain := pyOr o.domain hd.domain,
             placement := pyOr o.placement hd.placement,
             targeting := pyOr o.targeting hd.targeting,
             special := pyOr o.special hd.special,
             mapping_confidence := 1,
             updated_at := now } := by
  simp only [upsertCampaignHierarchy, h, if_pos]

theorem upsert_override_get (st : DbState) (hd : HierarchyData) (now : Nat) (o : OverrideRow)
    (f : HField) (h : getHierarchyOverride st.overrides hd.campaign_id = some o) :
    ((upsertCampaignHierarchy st hd now).hierarchy hd.campaign_id).map (fun r => r.get f) =
      some (pyOr (o.get f) (hd.get f)) := by
  rw [upsert_lookup_override st hd now o h]
  cases f <;> rfl

theorem pyOr_merge_spec (v : Option String) (d : String) : fieldMergeSpec v d (pyOr v d) := by
  constructor
  · intro s hs hne
    subst hs
    simp [pyOr, hne]
  · rintro (h | h) <;> subst h <;> simp [pyOr]

theorem getMappingConfidence_eq_amended (m : Hierarchy) (matched : List MatchedRule)
    (h : matched ≠ []) :
    getMappingConfidence m matched = amendedConfidence m matched := by
  simp only [getMappingConfidence, amendedConfidence, if_neg h]
  split_ifs <;> ring_nf

theorem getMappingConfidence_bounds (m : Hierarchy) (matched : List MatchedRule) :
    1/10 ≤ getMappingConfidence m matched ∧ getMappingConfidence m matched ≤ 1 := by
  unfold getMappingConfidence
  split
  · norm_num
  · exact ⟨le_max_left _ _, max_le (by norm_num) (min_le_left _ _)⟩

theorem rowCount_deactivate (rows : List OverrideRow) (cid c : Int) (now : Nat) :
    rowCount (rows.map (fun r =>
      if r.campaign_id = cid ∧ r.is_active then { r with is_active := false, updated_at := some now }
      else r)) c = rowCount rows c := by
  induction rows with
  | nil => rfl
  | cons r rest ih =>
    simp only [rowCount, List.map_cons, List.filter_cons] at ih ⊢
    by_cases hr : r.campaign_id = cid ∧ r.is_active = true
    · rw [if_pos hr]
      by_cases hc : r.campaign_id = c
      · simp [hc, ih]
      · simp [hc, ih]
    · rw [if_neg hr]
      by_cases hc : r.campaign_id = c <;> simp [hc, ih]

theorem deactivated_no_active (rows : List OverrideRow) (cid : Int) (now : Nat) :
    (rows.map (fun r =>
      if r.campaign_id = cid ∧ r.is_active then { r with is_active := false, updated_at := some now }
      else r)).filter (fun r => r.campaign_id = cid ∧ r.is_active) = [] := by
  induction rows with
  | nil => rfl
  | cons r rest ih =>
    simp only [List.map_cons, List.filter_cons]
    by_cases hr : r.campaign_id = cid ∧ r.is_active = true
    · rw [if_pos hr]
      rw [if_neg (by simp)]
      exact ih
    · rw [if_neg hr]
      rw [if_neg (by simpa using fun h1 h2 => hr ⟨h1, h2⟩)]
      exact ih

theorem activeCount_upsert_self (st : DbState) (od : OverrideData) (now : Nat) :
    activeCount ((upsertHierarchyOverride st od now).overrides) od.campaign_id = 1 := by
  unfold upsertHierarchyOverride activeCount
  rw [List.filter_append, deactivated_no_active]
  simp

theorem rowCount_upsert_self (st : DbState) (od : OverrideData) (now : Nat) :
    rowCount ((upsertHierarchyOverride st od now).overrides) od.campaign_id =
      rowCount st.overrides od.campaign_id + 1 := by
  have h1 := rowCount_deactivate st.overrides od.campaign_id od.campaign_id now
  unfold upsertHierarchyOverride rowCount
  simp only [rowCount] at h1
  rw [List.filter_append, List.length_append, h1]
  simp

theorem applyCalls_counts (c : Int) :
    ∀ (calls : List (OverrideData × Nat)) (st : DbState),
      calls ≠ [] → (∀ p ∈ calls, p.1.campaign_id = c) →
      activeCount ((applyOverrideCalls st calls).overrides) c = 1 ∧
      rowCount ((applyOverrideCalls st calls).overrides) c =
        rowCount st.overrides c + calls.length := by
  intro calls
  induction calls with
  | nil => intro st h _; exact absurd rfl h
  | cons p rest ih =>
    intro st _ hall
    have hp : p.1.campaign_id = c := hall p (List.mem_cons_self p rest)
    have hstep : applyOverrideCalls st (p :: rest) =
        applyOverrideCalls (upsertHierarchyOverride st p.1 p.2) rest := rfl
    cases rest with
    | nil =>
      rw [hstep]
      constructor
      · have := activeCount_upsert_self st p.1 p.2
        rwa [hp] at this
      · have := rowCount_upsert_self st p.1 p.2
        rw [hp] at this
        simpa using this
    | cons q rest2 =>
      have hrest : (q :: rest2 : List (OverrideData × Nat)) ≠ [] := by simp
      have hall2 : ∀ r ∈ q :: rest2, r.1.campaign_id = c := by
        intro r hr
        exact hall r (List.mem_cons_of_mem p hr)
      have ihr := ih (upsertHierarchyOverride st p.1 p.2) hrest hall2
      rw [hstep]
      refine ⟨ihr.1, ?_⟩
      rw [ihr.2]
      have := rowCount_upsert_self st p.1 p.2
      rw [hp] at this
      rw [this]
      simp only [List.length_cons]
      omega

theorem upsert_lookup_none (st : DbState) (hd : HierarchyData) (now : Nat)
    (h : getHierarchyOverride st.overrides hd.campaign_id = none) :
    (upsertCampaignHierarchy st hd now).hierarchy hd.campaign_id =
      some { campaign_id := hd.campaign_id, campaign_name := hd.campaign_name,
             network := hd.network, domain := hd.domain, placement := hd.placement,
             targeting := hd.targeting, special := hd.special,
             mapping_confidence := hd.mapping_confidence.getD 1,
             updated_at := now } := by
  simp only [upsertCampaignHierarchy, h, if_pos]

/-- C1 (amended: the override field must be non-null AND non-empty, since the
source merges with Python `or` truthiness): for every campaign with an active
override whose field value is a non-empty string `s`, `upsert_campaign_hierarchy`
called with any rule-based mapping whose value for that field differs from `s`
still persists `s` for that field — an automated re-sync never replaces such
an override field with the rule-based value. -/
theorem override_durability_nonempty (st : DbState) (hd : HierarchyData) (now : Nat)
    (o : OverrideRow) (f : HField) (s : String)
    (h1 : getHierarchyOverride st.overrides hd.campaign_id = some o)
    (h2 : o.get f = some s) (h3 : s ≠ "") (_h4 : hd.get f ≠ s) :
    ((upsertCampaignHierarchy st hd now).hierarchy hd.campaign_id).map (fun r => r.get f) =
      some s := by
  rw [upsert_override_get st hd now o f h1, h2]
  simp [pyOr, h3]

/-- C1 witness: a campaign with an active `network = "Aylo"` override keeps
`"Aylo"` when re-synced with rule-based `network = "Unknown"`. -/
theorem override_durability_nonempty_witness :
    getHierarchyOverride
        [⟨1, some "Aylo", none, none, none, none, "csv import", "importer", 5, true, none⟩] 1 =
      some ⟨1, some "Aylo", none, none, none, none, "csv import", "importer", 5, true, none⟩ ∧
    ((upsertCampaignHierarchy
        ⟨fun _ => none, [⟨1, some "Aylo", none, none, none, none, "csv import", "importer", 5, true, none⟩]⟩
        ⟨1, "Camp", "Unknown", "D", "P", "T", "S", some 1⟩ 9).hierarchy 1).map
      (fun r => r.get HField.network) = some "Aylo" :=
  ⟨by decide,
   override_durability_nonempty
     ⟨fun _ => none, [⟨1, some "Aylo", none, none, none, none, "csv import", "importer", 5, true, none⟩]⟩
     ⟨1, "Camp", "Unknown", "D", "P", "T", "S", some 1⟩ 9
     ⟨1, some "Aylo", none, none, none, none, "csv import", "importer", 5, true, none⟩
     HField.network "Aylo" (by decide) rfl (by decide) (by decide)⟩

/-- C1 counterexample to the claim as stated: an active override whose
`network` is NON-NULL but empty (`some ""`) is replaced by the rule-based
value — the source tests truthiness, not non-null-ness, so the persisted
network is "RuleNet", not the empty override value. -/
theorem override_durability_counterexample :
    getHierarchyOverride [⟨1, some "", none, none, none, none, "r", "u", 5, true, none⟩] 1 =
      some ⟨1, some "", none, none, none, none, "r", "u", 5, true, none⟩ ∧
    ((upsertCampaignHierarchy
        ⟨fun _ => none, [⟨1, some "", none, none, none, none, "r", "u", 5, true, none⟩]⟩
        ⟨1, "Camp", "RuleNet", "D", "P", "T", "S", none⟩ 7).hierarchy 1).map
      (fun r => r.network) = some "RuleNet" ∧
    "RuleNet" ≠ "" := by
  decide

/-- C2: after any nonempty sequence of `upsert_hierarchy_override` calls for
one campaign (starting with no override rows for it), exactly one override
row of that campaign is active and all inserted rows still exist — each call
deactivates, never deletes, prior rows. -/
theorem single_active_override (st : DbState) (c : Int) (calls : List (OverrideData × Nat))
    (h1 : calls ≠ []) (h2 : ∀ p ∈ calls, p.1.campaign_id = c)
    (h3 : rowCount st.overrides c = 0) :
    activeCount ((applyOverrideCalls st calls).overrides) c = 1 ∧
    rowCount ((applyOverrideCalls st calls).overrides) c = calls.length := by
  have h := applyCalls_counts c calls st h1 h2
  rw [h3] at h
  simpa using h

/-- C2 witness: two consecutive overrides for campaign 1 leave one active row
and two rows total. -/
theorem single_active_override_witness :
    activeCount ((applyOverrideCalls ⟨fun _ => none, []⟩
      [(⟨1, some "A", none, none, none, none, none, "u"⟩, 3),
       (⟨1, none, some "B", none, none, none, some "fixup", "v"⟩, 4)]).overrides) 1 = 1 ∧
    rowCount ((applyOverrideCalls ⟨fun _ => none, []⟩
      [(⟨1, some "A", none, none, none, none, none, "u"⟩, 3),
       (⟨1, none, some "B", none, none, none, some "fixup", "v"⟩, 4)]).overrides) 1 = 2 :=
  single_active_override ⟨fun _ => none, []⟩ 1
    [(⟨1, some "A", none, none, none, none, none, "u"⟩, 3),
     (⟨1, none, some "B", none, none, none, some "fixup", "v"⟩, 4)]
    (by decide) (by decide) (by decide)

/-- C3 (amended: "non-null" must be read as "non-null and non-empty", per the
truthiness merge of the source): when an active override exists, each of the five
persisted fields is the override value when that value is a non-empty string
and the rule-based value when the override field is null or empty, and the
persisted confidence is 1.0 unconditionally. -/
theorem override_merge_semantics (st : DbState) (hd : HierarchyData) (now : Nat) (o : OverrideRow)
    (h1 : getHierarchyOverride st.overrides hd.campaign_id = some o) :
    ∃ r, (upsertCampaignHierarchy st hd now).hierarchy hd.campaign_id = some r ∧
      (∀ f, fieldMergeSpec (o.get f) (hd.get f) (r.get f)) ∧
      r.mapping_confidence = 1 := by
  refine ⟨_, upsert_lookup_override st hd now o h1, ?_, rfl⟩
  intro f
  cases f <;> exact pyOr_merge_spec _ _

/-- C3 witness: the example given by the spec — an override with null network
and domain "Dating Platform" over rule-based network "Unknown". -/
theorem override_merge_semantics_witness :
    ∃ r, (upsertCampaignHierarchy
        ⟨fun _ => none, [⟨42, none, some "Dating Platform", none, none, none, "fix", "ops", 2, true, none⟩]⟩
        ⟨42, "C42", "Unknown", "Unknown Network", "P", "T", "S", some 1⟩ 13).hierarchy 42 = some r ∧
      (∀ f, fieldMergeSpec
        (OverrideRow.get ⟨42, none, some "Dating Platform", none, none, none, "fix", "ops", 2, true, none⟩ f)
        (HierarchyData.get ⟨42, "C42", "Unknown", "Unknown Network", "P", "T", "S", some 1⟩ f)
        (r.get f)) ∧
      r.mapping_confidence = 1 :=
  override_merge_semantics
    ⟨fun _ => none, [⟨42, none, some "Dating Platform", none, none, none, "fix", "ops", 2, true, none⟩]⟩
    ⟨42, "C42", "Unknown", "Unknown Network", "P", "T", "S", some 1⟩ 13
    ⟨42, none, some "Dating Platform", none, none, none, "fix", "ops", 2, true, none⟩ (by decide)

/-- C3 counterexample to the claim as stated: a NON-NULL but empty override
`domain` (`some ""`) does not win; the rule-based `"RuleDom"` is persisted. -/
theorem override_merge_counterexample :
    getHierarchyOverride [⟨2, some "Aylo", some "", none, none, none, "r", "u", 6, true, none⟩] 2 =
      some ⟨2, some "Aylo", some "", none, none, none, "r", "u", 6, true, none⟩ ∧
    ((upsertCampaignHierarchy
        ⟨fun _ => none, [⟨2, some "Aylo", some "", none, none, none, "r", "u", 6, true, none⟩]⟩
        ⟨2, "C2", "Unknown", "RuleDom", "P", "T", "S", none⟩ 8).hierarchy 2).map
      (fun r => r.domain) = some "RuleDom" ∧
    "RuleDom" ≠ "" := by
  decide

/-- C5: with unchanged override state, calling `upsert_campaign_hierarchy`
twice with identical inputs stores an identical row up to `updated_at` (the
second stored row is the first with only `updated_at` refreshed). -/
theorem upsert_idempotent (st : DbState) (hd : HierarchyData) (t1 t2 : Nat) :
    ∃ r1 r2,
      (upsertCampaignHierarchy st hd t1).hierarchy hd.campaign_id = some r1 ∧
      (upsertCampaignHierarchy (upsertCampaignHierarchy st hd t1) hd t2).hierarchy
        hd.campaign_id = some r2 ∧
      r2 = { r1 with updated_at := t2 } := by
  cases ho : getHierarchyOverride st.overrides hd.campaign_id with
  | some o =>
    exact ⟨_, _, upsert_lookup_override st hd t1 o ho,
      upsert_lookup_override (upsertCampaignHierarchy st hd t1) hd t2 o ho, rfl⟩
  | none =>
    exact ⟨_, _, upsert_lookup_none st hd t1 ho,
      upsert_lookup_none (upsertCampaignHierarchy st hd t1) hd t2 ho, rfl⟩

/-- C10: an active override field stored as the empty string behaves exactly
like a null field in both `upsert_campaign_hierarchy` and
`get_merged_hierarchy`: the merge tests truthiness, so the rule-based
(respectively base-record) value falls through. -/
theorem empty_string_override_falls_through (st : DbState) (hd : HierarchyData) (now : Nat)
    (o : OverrideRow) (f : HField)
    (h1 : getHierarchyOverride st.overrides hd.campaign_id = some o)
    (h2 : o.get f = some "") :
    ((upsertCampaignHierarchy st hd now).hierarchy hd.campaign_id).map (fun r => r.get f) =
      some (hd.get f) ∧
    ∀ b, st.hierarchy hd.campaign_id = some b →
      (getMergedHierarchy st hd.campaign_id).map (fun m => m.get f) = some (b.get f) := by
  constructor
  · rw [upsert_override_get st hd now o f h1, h2]
    simp [pyOr]
  · intro b hb
    simp only [getMergedHierarchy, hb, h1]
    cases f <;>
      simp_all [MergedHierarchy.get, OverrideRow.get, CampaignHierarchyRow.get, pyOr]

/-- C10 witness: an override with `placement = some ""` falls through to the
rule-based placement on upsert and to the base placement on merged read. -/
theorem empty_string_override_witness :
    ((upsertCampaignHierarchy
        ⟨fun c => if c = 3 then some ⟨3, "C3", "N0", "D0", "P0", "T0", "S0", 1, 2⟩ else none,
         [⟨3, none, none, some "", none, none, "r", "u", 4, true, none⟩]⟩
        ⟨3, "C3", "N1", "D1", "P1", "T1", "S1", some 1⟩ 9).hierarchy 3).map
      (fun r => r.get HField.placement) = some "P1" ∧
    (getMergedHierarchy
        ⟨fun c => if c = 3 then some ⟨3, "C3", "N0", "D0", "P0", "T0", "S0", 1, 2⟩ else none,
         [⟨3, none, none, some "", none, none, "r", "u", 4, true, none⟩]⟩ 3).map
      (fun m => m.get HField.placement) = some "P0" :=
  ⟨(empty_string_override_falls_through
      ⟨fun c => if c = 3 then some ⟨3, "C3", "N0", "D0", "P0", "T0", "S0", 1, 2⟩ else none,
       [⟨3, none, none, some "", none, none, "r", "u", 4, true, none⟩]⟩
      ⟨3, "C3", "N1", "D1", "P1", "T1", "S1", some 1⟩ 9
      ⟨3, none, none, some "", none, none, "r", "u", 4, true, none⟩
      HField.placement (by decide) rfl).1,
   (empty_string_override_falls_through
      ⟨fun c => if c = 3 then some ⟨3, "C3", "N0", "D0", "P0", "T0", "S0", 1, 2⟩ else none,
       [⟨3, none, none, some "", none, none, "r", "u", 4, true, none⟩]⟩
      ⟨3, "C3", "N1", "D1", "P1", "T1", "S1", some 1⟩ 9
      ⟨3, none, none, some "", none, none, "r", "u", 4, true, none⟩
      HField.placement (by decide) rfl).2
     ⟨3, "C3", "N0", "D0", "P0", "T0", "S0", 1, 2⟩ rfl⟩

/-- C4 (amended: a field that R1 sets to a non-inherit, non-empty value
DIFFERENT FROM THE DEFAULT OF THAT FIELD is never overwritten by any later — hence
lower-priority — rule R2; a value equal to the default can be overwritten,
because the source guards on "field still holds its default", not "field not
yet set"): the final value of such a field equals its value right after R1
was processed, whatever rules follow. -/
theorem priority_precedence (rs : String → String → Option Bool) (name : String)
    (l1 l2 : List Rule) (r1 : Rule) (f : HField) (v : String)
    (hm : matchRule rs name r1 = true)
    (hv : r1.mapping.get f = some v) (h0 : v ≠ "") (hi : v ≠ "inherit")
    (hdv : v ≠ defaultHierarchy.get f) :
    (applyMappingRules rs name (l1 ++ r1 :: l2)).1.get f =
      (runRules rs name (l1 ++ [r1])).1.get f := by
  have hne : l1 ++ r1 :: l2 ≠ [] := by simp
  simp only [applyMappingRules, if_neg hne]
  unfold runRules
  rw [show l1 ++ r1 :: l2 = (l1 ++ [r1]) ++ l2 by simp]
  rw [List.foldl_append]
  apply foldl_ruleStep_preserve
  rw [List.foldl_append]
  simp only [List.foldl_cons, List.foldl_nil]
  set a := List.foldl (ruleStep rs name) (defaultHierarchy, []) l1 with ha
  by_cases hdef : a.1.get f = defaultHierarchy.get f
  · have hset : (ruleStep rs name a r1).1.get f = v := by
      unfold ruleStep
      rw [if_pos hm, applyRule_get, hv]
      simp [applyField, h0, hi, hdef]
    rw [hset]
    exact hdv
  · rw [ruleStep_preserve rs name a r1 f hdef]
    exact hdef

/-- C4 witness: R1 (priority 100) sets network to "NetA" (non-default); the
later rule R2 with network "NetB" does not change it. -/
theorem priority_precedence_witness :
    matchRule (fun _ _ => none) "zz"
      ⟨"r1", 100, "contains", "z", ⟨some "NetA", none, none, none, none⟩⟩ = true ∧
    (applyMappingRules (fun _ _ => none) "zz"
      [⟨"r1", 100, "contains", "z", ⟨some "NetA", none, none, none, none⟩⟩,
       ⟨"r2", 50, "contains", "z", ⟨some "NetB", none, none, none, none⟩⟩]).1.get HField.network =
      (runRules (fun _ _ => none) "zz"
        [⟨"r1", 100, "contains", "z", ⟨some "NetA", none, none, none, none⟩⟩]).1.get HField.network :=
  ⟨by decide,
   priority_precedence (fun _ _ => none) "zz" []
     [⟨"r2", 50, "contains", "z", ⟨some "NetB", none, none, none, none⟩⟩]
     ⟨"r1", 100, "contains", "z", ⟨some "NetA", none, none, none, none⟩⟩
     HField.network "NetA" (by decide) rfl (by decide) (by decide) (by decide)⟩

/-- C4 counterexample to the claim as stated: higher-priority R1 sets network
to "Unknown" — a non-inherit value, but equal to the default — and the
lower-priority R2 then overwrites it with "NetX". -/
theorem priority_precedence_counterexample :
    matchRule (fun _ _ => none) "a"
      ⟨"r1", 100, "contains", "a", ⟨some "Unknown", none, none, none, none⟩⟩ = true ∧
    (⟨"r1", 100, "contains", "a", ⟨some "Unknown", none, none, none, none⟩⟩ : Rule).mapping.network =
      some "Unknown" ∧
    (applyMappingRules (fun _ _ => none) "a"
      [⟨"r1", 100, "contains", "a", ⟨some "Unknown", none, none, none, none⟩⟩,
       ⟨"r2", 50, "contains", "a", ⟨some "NetX", none, none, none, none⟩⟩]).1.network = "NetX" ∧
    "NetX" ≠ "Unknown" := by
  decide

/-- C7: for every campaign name and rule set (the empty one included) the
returned confidence lies in [0.1, 1.0], and it is exactly 0.1 whenever zero
rules matched. -/
theorem confidence_bounds (rs : String → String → Option Bool) (name : String)
    (rules : List Rule) :
    1/10 ≤ (applyMappingRules rs name rules).2.2 ∧
    (applyMappingRules rs name rules).2.2 ≤ 1 ∧
    ((applyMappingRules rs name rules).2.1 = [] →
      (applyMappingRules rs name rules).2.2 = 1/10) := by
  by_cases hr : rules = []
  · subst hr
    exact ⟨le_refl _, by show (1:ℚ)/10 ≤ 1; norm_num, fun _ => rfl⟩
  · simp only [applyMappingRules, if_neg hr]
    refine ⟨(getMappingConfidence_bounds _ _).1, (getMappingConfidence_bounds _ _).2, fun h => ?_⟩
    rw [h]
    simp [getMappingConfidence]

/-- C7 witness: the empty rule set yields confidence exactly 0.1, within
bounds. -/
theorem confidence_bounds_witness :
    1/10 ≤ (applyMappingRules (fun _ _ => none) "x" []).2.2 ∧
    (applyMappingRules (fun _ _ => none) "x" []).2.2 ≤ 1 ∧
    (applyMappingRules (fun _ _ => none) "x" []).2.2 = 1/10 :=
  ⟨(confidence_bounds (fun _ _ => none) "x" []).1,
   (confidence_bounds (fun _ _ => none) "x" []).2.1,
   (confidence_bounds (fun _ _ => none) "x" []).2.2 rfl⟩

/-- C6 (amended: the −0.2 penalty fires when at least 3 of the 5 field VALUES
contain the substring "Unknown" — the source tests substring containment — not
when the fields remain at their defaults): for every resolution that matched
at least one rule, the returned confidence equals the additive clamp formula
with that substring-based penalty. -/
theorem confidence_formula_amended (rs : String → String → Option Bool) (name : String)
    (rules : List Rule) (h : (applyMappingRules rs name rules).2.1 ≠ []) :
    (applyMappingRules rs name rules).2.2 =
      amendedConfidence (applyMappingRules rs name rules).1
        (applyMappingRules rs name rules).2.1 := by
  by_cases hr : rules = []
  · subst hr
    exact absurd rfl h
  · simp only [applyMappingRules, if_neg hr] at h ⊢
    exact getMappingConfidence_eq_amended _ _ h

/-- C6 witness: one exact high-priority match. -/
theorem confidence_formula_witness :
    (applyMappingRules (fun _ _ => none) "zz"
      [⟨"r1", 950, "exact", "zz", ⟨some "N", some "D", none, none, none⟩⟩]).2.1 ≠ [] ∧
    (applyMappingRules (fun _ _ => none) "zz"
      [⟨"r1", 950, "exact", "zz", ⟨some "N", some "D", none, none, none⟩⟩]).2.2 =
      amendedConfidence
        (applyMappingRules (fun _ _ => none) "zz"
          [⟨"r1", 950, "exact", "zz", ⟨some "N", some "D", none, none, none⟩⟩]).1
        (applyMappingRules (fun _ _ => none) "zz"
          [⟨"r1", 950, "exact", "zz", ⟨some "N", some "D", none, none, none⟩⟩]).2.1 :=
  ⟨by decide,
   confidence_formula_amended (fun _ _ => none) "zz"
     [⟨"r1", 950, "exact", "zz", ⟨some "N", some "D", none, none, none⟩⟩] (by decide)⟩

/-- C6 counterexample to the claim as stated: one matched rule rewrites three
fields to fresh values that merely CONTAIN "Unknown" (none of the five fields
remains at its default).  The source still applies the −0.2 penalty and
returns 0.1, while the formula as the spec words it (penalty only when ≥3
fields remain at their default value) yields 0.2. -/
theorem confidence_formula_counterexample :
    (applyMappingRules (fun _ _ => none) "a"
      [⟨"u", 100, "contains", "a",
        ⟨some "A Unknown", some "B Unknown", some "C Unknown", some "T", some "S"⟩⟩]).2.2 = 1/10 ∧
    claimedConfidence
      (applyMappingRules (fun _ _ => none) "a"
        [⟨"u", 100, "contains", "a",
          ⟨some "A Unknown", some "B Unknown", some "C Unknown", some "T", some "S"⟩⟩]).1
      (applyMappingRules (fun _ _ => none) "a"
        [⟨"u", 100, "contains", "a",
          ⟨some "A Unknown", some "B Unknown", some "C Unknown", some "T", some "S"⟩⟩]).2.1 = 1/5 ∧
    ((1:ℚ)/10) ≠ 1/5 := by
  refine ⟨?_, ?_, by norm_num⟩
  · have h3 : (applyMappingRules (fun _ _ => none) "a"
        [⟨"u", 100, "contains", "a",
          ⟨some "A Unknown", some "B Unknown", some "C Unknown", some "T", some "S"⟩⟩]).2.2 =
        getMappingConfidence ⟨"A Unknown", "B Unknown", "C Unknown", "T", "S"⟩
          [⟨"u", 100, "contains", "a"⟩] := rfl
    rw [h3]
    norm_num +decide [getMappingConfidence, hierValues, List.countP, List.countP.go,
      strContainsSub, hasInfixChars]
  · have h1 : (applyMappingRules (fun _ _ => none) "a"
        [⟨"u", 100, "contains", "a",
          ⟨some "A Unknown", some "B Unknown", some "C Unknown", some "T", some "S"⟩⟩]).1 =
        ⟨"A Unknown", "B Unknown", "C Unknown", "T", "S"⟩ := by decide
    have h2 : (applyMappingRules (fun _ _ => none) "a"
        [⟨"u", 100, "contains", "a",
          ⟨some "A Unknown", some "B Unknown", some "C Unknown", some "T", some "S"⟩⟩]).2.1 =
        [⟨"u", 100, "contains", "a"⟩] := by decide
    rw [h1, h2]
    norm_num +decide [claimedConfidence, allHFields, List.countP, List.countP.go,
      Hierarchy.get, defaultHierarchy]

/-- C9: `match_rule` is total by construction and falls back to `false`
instead of raising: an unknown (lower-cased) pattern type never matches, an
invalid regex (oracle `none`, modelling `re.error`) never matches, and a
valid regex pattern is searched against the ORIGINAL-case campaign name via
the case-insensitive oracle. -/
theorem match_rule_fallback (rs : String → String → Option Bool) (name : String) (r : Rule) :
    (lowerStr r.pattern_type ∉ patternTypes → matchRule rs name r = false) ∧
    (lowerStr r.pattern_type = "regex" → rs r.pattern_value name = none →
      matchRule rs name r = false) ∧
    (lowerStr r.pattern_type = "regex" → r.pattern_value ≠ "" →
      matchRule rs name r = (rs r.pattern_value name).getD false) := by
  refine ⟨?_, ?_, ?_⟩
  · intro hmem
    have e0 : lowerStr r.pattern_type ≠ "exact" := fun he => hmem (by rw [he]; decide)
    have e1 : lowerStr r.pattern_type ≠ "contains" := fun he => hmem (by rw [he]; decide)
    have e2 : lowerStr r.pattern_type ≠ "starts_with" := fun he => hmem (by rw [he]; decide)
    have e3 : lowerStr r.pattern_type ≠ "ends_with" := fun he => hmem (by rw [he]; decide)
    have e4 : lowerStr r.pattern_type ≠ "regex" := fun he => hmem (by rw [he]; decide)
    unfold matchRule
    by_cases hpt : lowerStr r.pattern_type = ""
    · simp [hpt]
    · by_cases hpv : r.pattern_value = ""
      · simp [hpv]
      · simp [hpt, hpv, e0, e1, e2, e3, e4]
  · intro hreg hnone
    by_cases hpv : r.pattern_value = ""
    · unfold matchRule
      simp [hpv]
    · unfold matchRule
      simp [hreg, hpv, hnone]
  · intro hreg hpv
    unfold matchRule
    simp [hreg, hpv]

/-- C9 witness: an unknown pattern type yields false; a regex rule is
evaluated through the oracle on the original-case name. -/
theorem match_rule_fallback_witness :
    matchRule (fun _ _ => none) "x" ⟨"r", 0, "fuzzy", "p", ⟨none, none, none, none, none⟩⟩ = false ∧
    matchRule (fun _ n => some (decide (n = "AbC"))) "AbC"
      ⟨"r", 0, "Regex", "ab", ⟨none, none, none, none, none⟩⟩ =
      ((fun (_ n : String) => some (decide (n = "AbC"))) "ab" "AbC").getD false :=
  ⟨(match_rule_fallback (fun _ _ => none) "x"
      ⟨"r", 0, "fuzzy", "p", ⟨none, none, none, none, none⟩⟩).1 (by decide),
   (match_rule_fallback (fun _ n => some (decide (n = "AbC"))) "AbC"
      ⟨"r", 0, "Regex", "ab", ⟨none, none, none, none, none⟩⟩).2.2 (by decide) (by decide)⟩

/-- C8 (amended: validation errors block the rule-management activation path
`reload_to_database`, which is the only validating path; the mapper function
`load_rules_from_yaml` performs NO validation and will load a malformed rule
set — see the counterexample): any validation error makes the reload return
failure with the rule table untouched. -/
theorem validation_blocks_reload (regexOk : String → Bool) (rd : RulesData) (db : List DbRule)
    (h : validateRules regexOk rd ≠ []) :
    reloadToDatabase regexOk (some rd) db = (false, db) := by
  simp only [reloadToDatabase, if_pos h]

/-- C8 witness: a rule file missing its version field is rejected by the
reload path. -/
theorem validation_blocks_reload_witness :
    validateRules (fun _ => true)
      ⟨none, some [⟨some "r1", some 5, some "contains", some "a",
        some ⟨some "N", some "D", some "P", some "T", some "S"⟩, some true⟩]⟩ ≠ [] ∧
    reloadToDatabase (fun _ => true)
      (some ⟨none, some [⟨some "r1", some 5, some "contains", some "a",
        some ⟨some "N", some "D", some "P", some "T", some "S"⟩, some true⟩]⟩) [] =
      (false, []) :=
  ⟨by decide,
   validation_blocks_reload (fun _ => true)
     ⟨none, some [⟨some "r1", some 5, some "contains", some "a",
       some ⟨some "N", some "D", some "P", some "T", some "S"⟩, some true⟩]⟩ [] (by decide)⟩

/-- C8 counterexample to "every path that activates rules": a rule set with a
duplicate priority (and no fallback rule) produces validation errors, yet the
mapper path `load_rules_from_yaml` still loads and activates both rules —
the malformed set IS silently loaded on the resolution path. -/
theorem validation_everypath_counterexample :
    validateRules (fun _ => true)
      ⟨some "1.0", some
        [⟨some "r1", some 100, some "contains", some "a",
          some ⟨some "N", some "D", some "P", some "T", some "S"⟩, some true⟩,
         ⟨some "r2", some 100, some "contains", some "b",
          some ⟨some "N", some "D", some "P", some "T", some "S"⟩, some true⟩]⟩ ≠ [] ∧
    loadRulesFromYamlData (some
      ⟨some "1.0", some
        [⟨some "r1", some 100, some "contains", some "a",
          some ⟨some "N", some "D", some "P", some "T", some "S"⟩, some true⟩,
         ⟨some "r2", some 100, some "contains", some "b",
          some ⟨some "N", some "D", some "P", some "T", some "S"⟩, some true⟩]⟩) =
      [⟨some "r1", some 100, some "contains", some "a",
        some ⟨some "N", some "D", some "P", some "T", some "S"⟩, some true⟩,
       ⟨some "r2", some 100, some "contains", some "b",
        some ⟨some "N", some "D", some "P", some "T", some "S"⟩, some true⟩] := by
  decide

end DW
